import Mathlib

/-!
Verification of the claude-scheduler job execution engine.

This file gives a shallow embedding, in Lean 4, of the scheduler, the
process-orchestration layer and the transcript builder of the repository
(`internal/scheduler/scheduler.go`, `internal/executor/claude.go`,
`internal/db/jobs.go`, `internal/db/runs.go`), together with theorems that
settle the frozen claims C1..C10 about that code.

Modelling conventions:
* Go strings are Lean `String`s; where Go's byte-level slicing matters
  (output truncation) we work over `List UInt8` instead.
* `time.Time` values are modelled as `Int` nanoseconds since the Unix epoch
  (UTC); `time.Duration` as `Int` nanoseconds (overflow is never exercised
  by the claims).
* `encoding/json` is modelled by an executable JSON reader over `List Char`
  (exact key matching; number literals are kept verbatim), and decoders that
  mirror Go's unmarshalling of the concrete structs used by the code.
* Store/database operations become pure transformers of an explicit state.
* External subprocess invocations (`runClaude`) are a function parameter.
-/

set_option maxRecDepth 4000

namespace ClaudeScheduler

/-! ## Go string helpers (strings.TrimSpace, strings.Contains) -/

/-- The characters Go's `unicode.IsSpace` treats as white space. -/
def goIsSpace (c : Char) : Bool :=
  c = ' ' ∨ ('\x09' ≤ c ∧ c ≤ '\x0d') ∨ c = '\x85' ∨ c = '\xa0' ∨
  c = '\u1680' ∨ ('\u2000' ≤ c ∧ c ≤ '\u200a') ∨
  c = '\u2028' ∨ c = '\u2029' ∨ c = '\u202f' ∨ c = '\u205f' ∨ c = '\u3000'

/-- `strings.TrimSpace` on the character list. -/
def trimChars (cs : List Char) : List Char :=
  ((cs.dropWhile goIsSpace).reverse.dropWhile goIsSpace).reverse

/-- `strings.TrimSpace`. -/
def goTrim (s : String) : String :=
  ⟨trimChars s.data⟩

/-- Does `needle` occur as a contiguous run inside `hay`? -/
def listInfixB (needle : List Char) : List Char → Bool
  | [] => needle.isEmpty
  | c :: rest => needle.isPrefixOf (c :: rest) || listInfixB needle rest

/-- `strings.Contains s sub` (byte containment coincides with character
containment on well-formed UTF-8). -/
def strContains (s sub : String) : Bool :=
  listInfixB sub.data s.data

theorem listInfixB_nil (hay : List Char) : listInfixB [] hay = true := by
  cases hay <;> simp [listInfixB, List.isPrefixOf, List.isEmpty]

theorem strContains_empty (s : String) : strContains s "" = true := by
  simpa [strContains] using listInfixB_nil s.data

/-! ## Output truncation (`internal/db/runs.go`), byte-accurate -/

/-- `maxOutputBytes = 100 * 1024`. -/
def maxOutputBytes : Nat := 100 * 1024

/-- The bytes of the marker `"\n\n[truncated]"`. -/
def truncatedMarkerB : List UInt8 :=
  [10, 10, 91, 116, 114, 117, 110, 99, 97, 116, 101, 100, 93]

/-- `truncateOutput` from `internal/db/runs.go`, over the raw bytes of the
Go string: keep the output if it fits in `maxOutputBytes`, else cut it at
`maxOutputBytes - len(marker)` bytes and append the marker. -/
def truncateOutputB (s : List UInt8) : List UInt8 :=
  if s.length ≤ maxOutputBytes then s
  else s.take (maxOutputBytes - truncatedMarkerB.length) ++ truncatedMarkerB

/-- A job run as persisted by the db layer, with byte-level output. -/
structure JobRunB where
  id : String
  jobId : String
  startedAt : String
  endedAt : String
  status : String
  output : List UInt8
  pendingQuestion : String
  deriving Repr, DecidableEq

/-- `Store.CreateRun`: assign a fresh id when empty, truncate the output and
insert the row.  `newId` stands for the generated UUID. -/
def createRunB (runs : List JobRunB) (run : JobRunB) (newId : String) :
    JobRunB × List JobRunB :=
  let run := if run.id = "" then { run with id := newId } else run
  let run := { run with output := truncateOutputB run.output }
  (run, runs ++ [run])

/-- `Store.UpdateRun`: truncate the output and update the row with the
matching id, failing when no row matches. -/
def updateRunB (runs : List JobRunB) (run : JobRunB) :
    Except String (List JobRunB) :=
  let run := { run with output := truncateOutputB run.output }
  if runs.any (fun r => r.id = run.id) then
    .ok (runs.map (fun r => if r.id = run.id then run else r))
  else
    .error ("run not found: " ++ run.id)

/-! ## Interval duration and time parsing (`internal/scheduler/scheduler.go`) -/

/-- `intervalDuration`: value+unit to nanoseconds; unknown unit yields 0. -/
def intervalDuration (value : Int) (unit : String) : Int :=
  if unit = "minutes" then value * 60 * 1000000000
  else if unit = "hours" then value * 3600 * 1000000000
  else if unit = "days" then value * 24 * 3600 * 1000000000
  else if unit = "weeks" then value * 7 * 24 * 3600 * 1000000000
  else 0

/-- Number of days in a month of the proleptic Gregorian calendar. -/
def daysInMonth (year month : Int) : Int :=
  if month = 2 then
    if year % 4 = 0 ∧ (year % 100 ≠ 0 ∨ year % 400 = 0) then 29 else 28
  else if month = 4 ∨ month = 6 ∨ month = 9 ∨ month = 11 then 30
  else 31

/-- Days between 1970-01-01 and the given civil date (Hinnant's algorithm). -/
def daysFromCivil (y m d : Int) : Int :=
  let y' := if m ≤ 2 then y - 1 else y
  let era := y'.fdiv 400
  let yoe := y' - era * 400
  let mp := if m > 2 then m - 3 else m + 9
  let doy := (153 * mp + 2).fdiv 5 + d - 1
  let doe := yoe * 365 + yoe.fdiv 4 - yoe.fdiv 100 + doy
  era * 146097 + doe - 719468

/-- Read exactly `n` decimal digits from the front of `cs`. -/
def readDigits : Nat → List Char → Option (Nat × List Char)
  | 0, cs => some (0, cs)
  | _ + 1, [] => none
  | n + 1, c :: cs =>
    if c.isDigit then
      match readDigits n cs with
      | some (v, rest) => some ((c.toNat - 48) * 10 ^ n + v, rest)
      | none => none
    else none

/-- Consume a leading decimal digit run, returning the digits and the rest. -/
def takeDigits : List Char → List Char × List Char
  | [] => ([], [])
  | c :: cs =>
    if c.isDigit then
      let (ds, rest) := takeDigits cs
      (c :: ds, rest)
    else ([], c :: cs)

/-- Value of a digit list read most-significant first. -/
def digitsVal (ds : List Char) : Nat :=
  ds.foldl (fun acc c => acc * 10 + (c.toNat - 48)) 0

/-- Nanoseconds denoted by an RFC 3339 fractional-second digit run
(truncated at nanosecond precision, as Go does). -/
def fracNanos (ds : List Char) : Nat :=
  let nine := ds.take 9
  digitsVal nine * 10 ^ (9 - nine.length)

/-- Combine validated date/time/zone components into epoch nanoseconds. -/
def civilToNanos (y mo d h mi s : Int) (frac : Int) (offsetSec : Int) : Int :=
  ((daysFromCivil y mo d * 86400 + h * 3600 + mi * 60 + s) * 1000000000
    + frac) - offsetSec * 1000000000

/-- Shared date-time prefix `YYYY-MM-DDTHH:MM` of both accepted layouts.
Returns the components and the remaining input, validating ranges the way
`time.Parse` does. -/
def parseDatePrefix (cs : List Char) : Option (Int × Int × Int × Int × Int × List Char) := do
  let (y, cs) ← readDigits 4 cs
  match cs with
  | '-' :: cs =>
    let (mo, cs) ← readDigits 2 cs
    match cs with
    | '-' :: cs =>
      let (d, cs) ← readDigits 2 cs
      match cs with
      | 'T' :: cs =>
        let (h, cs) ← readDigits 2 cs
        match cs with
        | ':' :: cs =>
          let (mi, cs) ← readDigits 2 cs
          if 1 ≤ mo ∧ mo ≤ 12 ∧ 1 ≤ d ∧
              (d : Int) ≤ daysInMonth (y : Int) (mo : Int) ∧ h ≤ 23 ∧ mi ≤ 59 then
            some ((y : Int), (mo : Int), (d : Int), (h : Int), (mi : Int), cs)
          else none
        | _ => none
      | _ => none
    | _ => none
  | _ => none

/-- Zone suffix of RFC 3339: `Z` or `±HH:MM`; returns offset seconds. -/
def parseZone (cs : List Char) : Option Int :=
  match cs with
  | ['Z'] => some 0
  | sign :: cs =>
    if sign = '+' ∨ sign = '-' then
      match readDigits 2 cs with
      | some (zh, ':' :: cs) =>
        match readDigits 2 cs with
        | some (zm, []) =>
          if zh ≤ 23 ∧ zm ≤ 59 then
            let off : Int := zh * 3600 + zm * 60
            some (if sign = '-' then -off else off)
          else none
        | _ => none
      | _ => none
    else none
  | _ => none

/-- `time.Parse(time.RFC3339, s)`: full timezone-qualified timestamp
`YYYY-MM-DDTHH:MM:SS[.fff](Z|±HH:MM)`. -/
def parseRFC3339 (s : String) : Option Int := do
  let (y, mo, d, h, mi, cs) ← parseDatePrefix s.data
  match cs with
  | ':' :: cs =>
    let (sec, cs) ← readDigits 2 cs
    if sec ≤ 59 then
      match cs with
      | '.' :: cs' =>
        let (ds, rest) := takeDigits cs'
        if ds.isEmpty then none
        else do
          let off ← parseZone rest
          some (civilToNanos y mo d h mi (sec : Int) ((fracNanos ds : Nat) : Int) off)
      | _ => do
        let off ← parseZone cs
        some (civilToNanos y mo d h mi (sec : Int) 0 off)
    else none
  | _ => none

/-- `time.Parse("2006-01-02T15:04", s)`: bare local date+time, read as UTC. -/
def parseDatetimeLocal (s : String) : Option Int := do
  let (y, mo, d, h, mi, cs) ← parseDatePrefix s.data
  match cs with
  | [] => some (civilToNanos y mo d h mi 0 0 0)
  | _ => none

/-- `parseTime` from `internal/scheduler/scheduler.go`: RFC 3339 first, then
the datetime-local layout used by the frontend. -/
def parseTime (s : String) : Option Int :=
  match parseRFC3339 s with
  | some t => some t
  | none => parseDatetimeLocal s

/-- Civil date-time of an epoch-nanosecond instant (UTC), used by
`Format(time.RFC3339)`. -/
def civilOfNanos (t : Int) : Int × Int × Int × Int × Int × Int :=
  let secs := t.fdiv 1000000000
  let days := secs.fdiv 86400
  let sod := secs.emod 86400
  let z := days + 719468
  let era := z.fdiv 146097
  let doe := z - era * 146097
  let yoe := (doe - doe.fdiv 1460 + doe.fdiv 36524 - doe.fdiv 146096).fdiv 365
  let y := yoe + era * 400
  let doy := doe - (365 * yoe + yoe.fdiv 4 - yoe.fdiv 100)
  let mp := (5 * doy + 2).fdiv 153
  let d := doy - (153 * mp + 2).fdiv 5 + 1
  let m := if mp < 10 then mp + 3 else mp - 9
  let y := if m ≤ 2 then y + 1 else y
  (y, m, d, sod.fdiv 3600, (sod.fdiv 60).emod 60, sod.emod 60)

/-- Left-pad the decimal rendering of a non-negative integer with zeroes. -/
def padNum (width : Nat) (n : Int) : String :=
  let digits := toString n.toNat
  ⟨List.replicate (width - digits.length) '0'⟩ ++ digits

/-- `t.Format(time.RFC3339)` for a UTC instant (fraction dropped). -/
def fmtRFC3339 (t : Int) : String :=
  let (y, mo, d, h, mi, s) := civilOfNanos t
  padNum 4 y ++ "-" ++ padNum 2 mo ++ "-" ++ padNum 2 d ++ "T" ++
    padNum 2 h ++ ":" ++ padNum 2 mi ++ ":" ++ padNum 2 s ++ "Z"


/-! ## JSON values and an executable reader (modelling `encoding/json`)

Object fields keep, besides the decoded value, the verbatim raw text of the
value, which is what Go stores into a `json.RawMessage`.  Keys are matched
exactly (Go's case-insensitive fallback is never exercised by this code's
lowercase tags).  Number literals are kept verbatim. -/

inductive Json where
  | null
  | bool (b : Bool)
  | num (lit : String)
  | str (s : String)
  | arr (elems : List Json)
  | obj (fields : List (String × Json × String))
  deriving Repr

/-- The white space bytes `encoding/json` skips between tokens. -/
def jsonIsWs (c : Char) : Bool :=
  c = ' ' ∨ c = '\t' ∨ c = '\n' ∨ c = '\r'

/-- Skip inter-token white space. -/
def skipWs (cs : List Char) : List Char :=
  cs.dropWhile jsonIsWs

/-- Hex digit value. -/
def hexVal (c : Char) : Option Nat :=
  if '0' ≤ c ∧ c ≤ '9' then some (c.toNat - 48)
  else if 'a' ≤ c ∧ c ≤ 'f' then some (c.toNat - 87)
  else if 'A' ≤ c ∧ c ≤ 'F' then some (c.toNat - 55)
  else none

/-- Turn a Unicode code point into a `Char`, mapping the surrogate range to
U+FFFD the way Go's decoder does for unpaired surrogates. -/
def charOfCodePoint (n : Nat) : Char :=
  if n.isValidChar then Char.ofNat n else '�'

/-- Body of a JSON string literal, after the opening quote.  Fuel bounds the
recursion; it is always sufficient for the inputs supplied. -/
def strBody (fuel : Nat) (cs : List Char) (acc : List Char) :
    Option (String × List Char) :=
  match fuel with
  | 0 => none
  | fuel + 1 =>
    match cs with
    | [] => none
    | '"' :: rest => some (⟨acc.reverse⟩, rest)
    | '\\' :: esc =>
      match esc with
      | '"' :: rest => strBody fuel rest ('"' :: acc)
      | '\\' :: rest => strBody fuel rest ('\\' :: acc)
      | '/' :: rest => strBody fuel rest ('/' :: acc)
      | 'b' :: rest => strBody fuel rest ('\x08' :: acc)
      | 'f' :: rest => strBody fuel rest ('\x0c' :: acc)
      | 'n' :: rest => strBody fuel rest ('\n' :: acc)
      | 'r' :: rest => strBody fuel rest ('\x0d' :: acc)
      | 't' :: rest => strBody fuel rest ('\t' :: acc)
      | 'u' :: a :: b :: c :: d :: rest => do
        let ha ← hexVal a
        let hb ← hexVal b
        let hc ← hexVal c
        let hd ← hexVal d
        let n := ((ha * 16 + hb) * 16 + hc) * 16 + hd
        if 0xd800 ≤ n ∧ n ≤ 0xdbff then
          match rest with
          | '\\' :: 'u' :: a2 :: b2 :: c2 :: d2 :: rest2 => do
            let ha2 ← hexVal a2
            let hb2 ← hexVal b2
            let hc2 ← hexVal c2
            let hd2 ← hexVal d2
            let n2 := ((ha2 * 16 + hb2) * 16 + hc2) * 16 + hd2
            if 0xdc00 ≤ n2 ∧ n2 ≤ 0xdfff then
              let cp := 0x10000 + (n - 0xd800) * 0x400 + (n2 - 0xdc00)
              strBody fuel rest2 (charOfCodePoint cp :: acc)
            else
              strBody fuel ('\\' :: 'u' :: a2 :: b2 :: c2 :: d2 :: rest2)
                ('�' :: acc)
          | _ => strBody fuel rest ('�' :: acc)
        else strBody fuel rest (charOfCodePoint n :: acc)
      | _ => none
    | c :: rest =>
      if c.toNat < 0x20 then none else strBody fuel rest (c :: acc)

/-- A JSON number literal: sign, integer part, optional fraction/exponent. -/
def numLit (cs : List Char) : Option (List Char × List Char) := do
  let (sign, cs1) :=
    match cs with
    | '-' :: rest => (['-'], rest)
    | _ => ([], cs)
  let (intPart, cs2) ←
    match cs1 with
    | '0' :: rest =>
      match rest with
      | c :: _ =>
        if c.isDigit then none else some (['0'], rest)
      | [] => some (['0'], ([] : List Char))
    | c :: _ =>
      if c.isDigit then
        let (ds, rest) := takeDigits cs1
        some (ds, rest)
      else none
    | [] => none
  let (fracPart, cs3) ←
    match cs2 with
    | '.' :: rest =>
      let (ds, rest') := takeDigits rest
      if ds.isEmpty then none else some ('.' :: ds, rest')
    | _ => some (([] : List Char), cs2)
  let (expPart, cs4) ←
    match cs3 with
    | e :: rest =>
      if e = 'e' ∨ e = 'E' then
        let (sgn, rest1) :=
          match rest with
          | s :: rest' => if s = '+' ∨ s = '-' then ([s], rest') else ([], rest)
          | [] => ([], rest)
        let (ds, rest2) := takeDigits rest1
        if ds.isEmpty then none else some (e :: (sgn ++ ds), rest2)
      else some (([] : List Char), cs3)
    | [] => some (([] : List Char), cs3)
  some (sign ++ intPart ++ fracPart ++ expPart, cs4)

/-- Raw text consumed between two parser positions. -/
def rawSpan (before after : List Char) : String :=
  ⟨before.take (before.length - after.length)⟩

mutual

/-- Parse one JSON value starting at `cs` (no leading white space). -/
def parseValue (fuel : Nat) (cs : List Char) : Option (Json × List Char) :=
  match fuel with
  | 0 => none
  | fuel + 1 =>
    match cs with
    | 'n' :: 'u' :: 'l' :: 'l' :: rest => some (.null, rest)
    | 't' :: 'r' :: 'u' :: 'e' :: rest => some (.bool true, rest)
    | 'f' :: 'a' :: 'l' :: 's' :: 'e' :: rest => some (.bool false, rest)
    | '"' :: rest =>
      match strBody (rest.length + 1) rest [] with
      | some (s, rest') => some (.str s, rest')
      | none => none
    | '\x7b' :: rest =>
      let rest := skipWs rest
      match rest with
      | '\x7d' :: rest' => some (.obj [], rest')
      | _ =>
        match parseMembers fuel rest with
        | some (fields, rest') => some (.obj fields, rest')
        | none => none
    | '[' :: rest =>
      let rest := skipWs rest
      match rest with
      | ']' :: rest' => some (.arr [], rest')
      | _ =>
        match parseElems fuel rest with
        | some (xs, rest') => some (.arr xs, rest')
        | none => none
    | c :: _ =>
      if c = '-' ∨ c.isDigit then
        match numLit cs with
        | some (lit, rest) => some (.num ⟨lit⟩, rest)
        | none => none
      else none
    | [] => none

/-- Parse the members of an object, positioned at a key. -/
def parseMembers (fuel : Nat) (cs : List Char) :
    Option (List (String × Json × String) × List Char) :=
  match fuel with
  | 0 => none
  | fuel + 1 =>
    match cs with
    | '"' :: rest =>
      match strBody (rest.length + 1) rest [] with
      | some (key, cs1) =>
        match skipWs cs1 with
        | ':' :: cs2 =>
          let cs3 := skipWs cs2
          match parseValue fuel cs3 with
          | some (v, cs4) =>
            let raw := rawSpan cs3 cs4
            match skipWs cs4 with
            | ',' :: cs5 =>
              match parseMembers fuel (skipWs cs5) with
              | some (fields, rest') => some ((key, v, raw) :: fields, rest')
              | none => none
            | '\x7d' :: cs5 => some ([(key, v, raw)], cs5)
            | _ => none
          | none => none
        | _ => none
      | none => none
    | _ => none

/-- Parse the elements of an array, positioned at an element. -/
def parseElems (fuel : Nat) (cs : List Char) :
    Option (List Json × List Char) :=
  match fuel with
  | 0 => none
  | fuel + 1 =>
    match parseValue fuel cs with
    | some (v, cs1) =>
      match skipWs cs1 with
      | ',' :: cs2 =>
        match parseElems fuel (skipWs cs2) with
        | some (xs, rest') => some (v :: xs, rest')
        | none => none
      | ']' :: cs2 => some ([v], cs2)
      | _ => none
    | none => none

end

/-- `json.Unmarshal` viewed as producing a `Json` value: the whole input must
be one JSON value surrounded only by white space. -/
def goUnmarshal (s : String) : Option Json :=
  match parseValue (s.data.length + 2) (skipWs s.data) with
  | some (v, rest) => if skipWs rest = [] then some v else none
  | none => none

/-! ## The CLI stream-json event structs (`internal/executor/claude.go`) -/

/-- `cliContentBlock`; `input` holds the raw `json.RawMessage` text, `""`
when the field is absent. -/
structure CliContentBlock where
  type : String := ""
  text : String := ""
  name : String := ""
  id : String := ""
  input : String := ""
  deriving Repr, DecidableEq

/-- `cliMessage`. -/
structure CliMessage where
  role : String := ""
  content : List CliContentBlock := []
  deriving Repr, DecidableEq

/-- `cliEvent`; `content` holds the raw `json.RawMessage` text. -/
structure CliEvent where
  type : String := ""
  subtype : String := ""
  message : Option CliMessage := none
  content : String := ""
  result : String := ""
  isError : Bool := false
  deriving Repr, DecidableEq

/-- Decode a JSON value into a string field: strings land, `null` is a no-op,
anything else is an unmarshalling error. -/
def decStr (v : Json) (cur : String) : Option String :=
  match v with
  | .str s => some s
  | .null => some cur
  | _ => none

/-- Decode a JSON value into a bool field. -/
def decBool (v : Json) (cur : Bool) : Option Bool :=
  match v with
  | .bool b => some b
  | .null => some cur
  | _ => none

/-- Decode one `cliContentBlock` (array elements: `null` is a no-op on the
zero value, non-objects are errors). -/
def decBlock (j : Json) : Option CliContentBlock :=
  match j with
  | .null => some {}
  | .obj fields =>
    fields.foldlM (fun b f =>
      let (k, v, raw) := f
      if k = "type" then (decStr v b.type).map (fun s => { b with type := s })
      else if k = "text" then (decStr v b.text).map (fun s => { b with text := s })
      else if k = "name" then (decStr v b.name).map (fun s => { b with name := s })
      else if k = "id" then (decStr v b.id).map (fun s => { b with id := s })
      else if k = "input" then some { b with input := raw }
      else some b) {}
  | _ => none

/-- Decode a `cliMessage` object. -/
def decMessage (fields : List (String × Json × String)) : Option CliMessage :=
  fields.foldlM (fun m f =>
    let (k, v, _) := f
    if k = "role" then (decStr v m.role).map (fun s => { m with role := s })
    else if k = "content" then
      match v with
      | .null => some m
      | .arr xs => (xs.mapM decBlock).map (fun bs => { m with content := bs })
      | _ => none
    else some m) {}

/-- Decode a whole `cliEvent` from a parsed JSON value. -/
def decodeCliEvent (j : Json) : Option CliEvent :=
  match j with
  | .null => some {}
  | .obj fields =>
    fields.foldlM (fun e f =>
      let (k, v, raw) := f
      if k = "type" then (decStr v e.type).map (fun s => { e with type := s })
      else if k = "subtype" then (decStr v e.subtype).map (fun s => { e with subtype := s })
      else if k = "message" then
        match v with
        | .null => some e
        | .obj mfields => (decMessage mfields).map (fun m => { e with message := some m })
        | _ => none
      else if k = "content" then some { e with content := raw }
      else if k = "result" then (decStr v e.result).map (fun s => { e with result := s })
      else if k = "is_error" then (decBool v e.isError).map (fun b => { e with isError := b })
      else some e) {}
  | _ => none

/-- `json.Unmarshal(line, &evt)`. -/
def parseCliEvent (line : String) : Option CliEvent :=
  (goUnmarshal line).bind decodeCliEvent

/-! ## The AskUserQuestion input shape -/

/-- `questionOption`. -/
structure QuestionOption where
  label : String := ""
  description : String := ""
  deriving Repr, DecidableEq

/-- `questionItem`. -/
structure QuestionItem where
  question : String := ""
  header : String := ""
  options : List QuestionOption := []
  deriving Repr, DecidableEq

/-- `questionInput`. -/
structure QuestionInput where
  questions : List QuestionItem := []
  deriving Repr, DecidableEq

/-- Decode one `questionOption`. -/
def decQOption (j : Json) : Option QuestionOption :=
  match j with
  | .null => some {}
  | .obj fields =>
    fields.foldlM (fun o f =>
      let (k, v, _) := f
      if k = "label" then (decStr v o.label).map (fun s => { o with label := s })
      else if k = "description" then
        (decStr v o.description).map (fun s => { o with description := s })
      else some o) {}
  | _ => none

/-- Decode one `questionItem`. -/
def decQItem (j : Json) : Option QuestionItem :=
  match j with
  | .null => some {}
  | .obj fields =>
    fields.foldlM (fun q f =>
      let (k, v, _) := f
      if k = "question" then (decStr v q.question).map (fun s => { q with question := s })
      else if k = "header" then (decStr v q.header).map (fun s => { q with header := s })
      else if k = "options" then
        match v with
        | .null => some q
        | .arr xs => (xs.mapM decQOption).map (fun os => { q with options := os })
        | _ => none
      else some q) {}
  | _ => none

/-- Decode a `questionInput`. -/
def decodeQuestionInput (j : Json) : Option QuestionInput :=
  match j with
  | .null => some {}
  | .obj fields =>
    fields.foldlM (fun qi f =>
      let (k, v, _) := f
      if k = "questions" then
        match v with
        | .null => some qi
        | .arr xs => (xs.mapM decQItem).map (fun qs => { qi with questions := qs })
        | _ => none
      else some qi) {}
  | _ => none

/-- `json.Unmarshal(rawInput, &qi)`. -/
def parseQuestionInput (raw : String) : Option QuestionInput :=
  (goUnmarshal raw).bind decodeQuestionInput


/-! ## Pretty-printing (`json.MarshalIndent` of a decoded `interface` value)

Go re-marshals the re-parsed tool input with two-space indentation, map keys
deduplicated (last occurrence wins) and sorted.  Number literals are kept
verbatim here (Go would round-trip them through `float64`); none of the
claims depends on number re-rendering. -/

/-- Hex digit character. -/
def hexDigit (n : Nat) : Char :=
  if n < 10 then Char.ofNat (48 + n) else Char.ofNat (87 + n)

/-- Escape one character the way Go's JSON encoder does (HTML escaping on). -/
def escChar (c : Char) : List Char :=
  if c = '"' then ['\\', '"']
  else if c = '\\' then ['\\', '\\']
  else if c = '<' then ['\\', 'u', '0', '0', '3', 'c']
  else if c = '>' then ['\\', 'u', '0', '0', '3', 'e']
  else if c = '&' then ['\\', 'u', '0', '0', '2', '6']
  else if c = '\n' then ['\\', 'n']
  else if c = '\x0d' then ['\\', 'r']
  else if c = '\t' then ['\\', 't']
  else if c.toNat < 0x20 then
    ['\\', 'u', '0', '0', hexDigit (c.toNat / 16), hexDigit (c.toNat % 16)]
  else if c = ' ' then ['\\', 'u', '2', '0', '2', '8']
  else if c = ' ' then ['\\', 'u', '2', '0', '2', '9']
  else [c]

/-- Go-style JSON string escaping. -/
def jsonEscape (s : String) : String :=
  ⟨s.data.flatMap escChar⟩

/-- Keep the last occurrence of each key, in first-occurrence order is not
needed since the result is sorted; Go map semantics: later keys overwrite. -/
def dedupPairs (ps : List (String × String)) : List (String × String) :=
  ps.foldl (fun acc p => acc.filter (fun q => q.1 ≠ p.1) ++ [p]) []

/-- Insert into a key-sorted association list. -/
def insertPair (p : String × String) : List (String × String) → List (String × String)
  | [] => [p]
  | q :: rest => if p.1 ≤ q.1 then p :: q :: rest else q :: insertPair p rest

/-- Sort an association list by key (byte order, as `sort.Strings`). -/
def sortPairs (ps : List (String × String)) : List (String × String) :=
  ps.foldl (fun acc p => insertPair p acc) []

/-- `json.MarshalIndent(v, "", "  ")` on a decoded JSON value, with `ind`
the indentation of the surrounding context. -/
def prettyVal (ind : String) : Json → String
  | .null => "null"
  | .bool b => if b then "true" else "false"
  | .num lit => lit
  | .str s => "\"" ++ jsonEscape s ++ "\""
  | .arr [] => "[]"
  | .arr (x :: xs) =>
    let ni := ind ++ "  "
    let items := (x :: xs).attach.map (fun e => ni ++ prettyVal ni e.1)
    "[\n" ++ String.intercalate ",\n" items ++ "\n" ++ ind ++ "]"
  | .obj fs =>
    let ni := ind ++ "  "
    let rendered := fs.attach.map (fun f => (f.1.1, prettyVal ni f.1.2.1))
    let sorted := sortPairs (dedupPairs rendered)
    match sorted with
    | [] => "\x7b\x7d"
    | ps =>
      let items := ps.map (fun p => ni ++ "\"" ++ jsonEscape p.1 ++ "\": " ++ p.2)
      "\x7b\n" ++ String.intercalate ",\n" items ++ "\n" ++ ind ++ "\x7d"
  termination_by j => sizeOf j
  decreasing_by
  · have h1 := List.sizeOf_lt_of_mem e.2
    simp only [Json.arr.sizeOf_spec]
    omega
  · obtain ⟨⟨k, v, raw⟩, hf⟩ := f
    have h1 := List.sizeOf_lt_of_mem hf
    simp only [Json.obj.sizeOf_spec, Prod.mk.sizeOf_spec] at h1 ⊢
    omega

/-- The pretty-printed form of a raw tool input: re-parse and re-indent when
it is valid JSON, otherwise keep the raw text (`writeToolUse`). -/
def prettyInput (raw : String) : String :=
  match goUnmarshal raw with
  | some parsed => prettyVal "" parsed
  | none => raw

/-! ## Transcript builder (`transcriptBuilder` in `internal/executor/claude.go`) -/

/-- `transcriptBuilder`: a markdown/HTML accumulator. -/
structure TB where
  buf : String := ""
  hasContent : Bool := false
  deriving Repr, DecidableEq

/-- `build()`: the accumulated transcript, trimmed. -/
def TB.mk_build (tb : TB) : String :=
  goTrim tb.buf

/-- `writeText`: freeform assistant text as a highlighted note. -/
def TB.writeText (tb : TB) (text : String) : TB :=
  let text := goTrim text
  if text = "" then tb
  else
    { buf := tb.buf ++
        "<div style=\"margin:8px 0;padding:8px 12px;border-left:3px solid #22d3ee;background:#0f172a;border-radius:4px;color:#e2e8f0;font-size:13px;line-height:1.5\">" ++
        text ++ "</div>\n\n",
      hasContent := true }

/-- `writeQuestion`: the highlighted question card for AskUserQuestion. -/
def TB.writeQuestion (tb : TB) (qi : QuestionInput) : TB :=
  let renderOption (opt : QuestionOption) : String :=
    "<div style=\"margin:4px 0;padding:6px 10px;border:1px solid #374151;border-radius:4px;background:#0f172a\">" ++
    "<span style=\"color:#fbbf24;font-weight:600\">" ++ opt.label ++ "</span>" ++
    (if opt.description ≠ "" then
      " <span style=\"color:#94a3b8;font-size:12px\">— " ++ opt.description ++ "</span>"
    else "") ++ "</div>"
  let renderQuestion (q : QuestionItem) : String :=
    "<div style=\"margin:8px 0;padding:12px 16px;border:1px solid #f59e0b;border-radius:6px;background:#1c1917;color:#e2e8f0;font-size:13px;line-height:1.5\">" ++
    "<div style=\"color:#f59e0b;font-weight:700;font-size:11px;text-transform:uppercase;letter-spacing:0.05em;margin-bottom:6px\">" ++
    (if q.header ≠ "" then q.header else "Question") ++ "</div>" ++
    "<div style=\"margin-bottom:10px;font-size:14px\">" ++ q.question ++ "</div>" ++
    (if q.options.length > 0 then String.join (q.options.map renderOption) else "") ++
    "</div>" ++ "\n\n"
  { buf := tb.buf ++ String.join (qi.questions.map renderQuestion),
    hasContent := true }

/-- The generic collapsible tool block branch of `writeToolUse`. -/
def TB.writeToolUseGeneric (tb : TB) (name : String) (rawInput : String) : TB :=
  { buf := tb.buf ++
      "<details style=\"margin:8px 0;border:1px solid #374151;border-radius:6px;overflow:hidden\">" ++
      "<summary style=\"cursor:pointer;padding:6px 10px;background:#1e293b;color:#60a5fa;font-size:13px;font-weight:600\">" ++
      "Tool: " ++ name ++ "</summary>" ++
      (if rawInput ≠ "" then
        "<pre style=\"margin:0;padding:8px 10px;background:#0f172a;color:#94a3b8;font-size:12px;overflow-x:auto\">" ++
        prettyInput rawInput ++ "</pre>"
      else "") ++
      "</details>\n\n",
    hasContent := true }

/-- `writeToolUse`: AskUserQuestion invocations with a non-empty question
list render as a question card; everything else as a generic tool block. -/
def TB.writeToolUse (tb : TB) (name : String) (rawInput : String) : TB :=
  if name = "AskUserQuestion" ∧ rawInput ≠ "" then
    match parseQuestionInput rawInput with
    | some qi =>
      if qi.questions ≠ [] then tb.writeQuestion qi
      else tb.writeToolUseGeneric name rawInput
    | none => tb.writeToolUseGeneric name rawInput
  else tb.writeToolUseGeneric name rawInput

/-- `writeToolResult`. -/
def TB.writeToolResult (tb : TB) (text : String) : TB :=
  if text = "" then tb
  else
    { buf := tb.buf ++
        "<details style=\"margin:8px 0;border:1px solid #374151;border-radius:6px;overflow:hidden\">" ++
        "<summary style=\"cursor:pointer;padding:6px 10px;background:#1e293b;color:#a78bfa;font-size:13px;font-weight:600\">" ++
        "Result" ++ "</summary>" ++
        "<pre style=\"margin:0;padding:8px 10px;background:#0f172a;color:#94a3b8;font-size:12px;overflow-x:auto;white-space:pre-wrap\">" ++
        text ++ "</pre>" ++ "</details>\n\n",
      hasContent := true }

/-- `writeSummary`. -/
def TB.writeSummary (tb : TB) (text : String) : TB :=
  let text := goTrim text
  if text = "" then tb
  else
    { buf := tb.buf ++
        "<hr style=\"border-color:#374151;margin:16px 0\">" ++
        "<div style=\"margin:8px 0;padding:10px 12px;border-left:3px solid #34d399;background:#0f172a;border-radius:4px;color:#e2e8f0;font-size:13px;line-height:1.5\">" ++
        "<strong style=\"color:#34d399\">Summary</strong><br>" ++
        text ++ "</div>\n",
      hasContent := true }

/-- `handleAssistant`: append each content block of an assistant message. -/
def TB.handleAssistant (tb : TB) (msg : Option CliMessage) : TB :=
  match msg with
  | none => tb
  | some m =>
    m.content.foldl (fun tb block =>
      if block.type = "text" then tb.writeText block.text
      else if block.type = "tool_use" then tb.writeToolUse block.name block.input
      else if block.type = "tool_result" then tb.writeToolResult block.text
      else tb) tb

/-- One line of the `buildTranscript` loop: updates the builder and the last
seen result string. -/
def transcriptStep (acc : TB × String) (line : String) : TB × String :=
  let line := goTrim line
  if line = "" then acc
  else
    match parseCliEvent line with
    | none => acc
    | some evt =>
      if evt.type = "assistant" then (acc.1.handleAssistant evt.message, acc.2)
      else if evt.type = "result" then (acc.1, evt.result)
      else acc

/-- `buildTranscript` from `internal/executor/claude.go`. -/
def buildTranscript (lines : List String) : String :=
  let acc := lines.foldl transcriptStep ({}, "")
  let tb := acc.1
  let lastResult := acc.2
  if lastResult ≠ "" then
    let trimmedResult := goTrim lastResult
    if ¬ (strContains tb.mk_build trimmedResult = true) then
      (tb.writeSummary lastResult).mk_build
    else tb.mk_build
  else tb.mk_build

/-- The builder part of one `buildTranscript` step: non-result events only. -/
def baseStep (tb : TB) (line : String) : TB :=
  let line := goTrim line
  if line = "" then tb
  else
    match parseCliEvent line with
    | none => tb
    | some evt =>
      if evt.type = "assistant" then tb.handleAssistant evt.message
      else tb

/-- The last-result part of one `buildTranscript` step. -/
def lastStep (last : String) (line : String) : String :=
  let line := goTrim line
  if line = "" then last
  else
    match parseCliEvent line with
    | none => last
    | some evt =>
      if evt.type = "assistant" then last
      else if evt.type = "result" then evt.result
      else last

/-- The transcript built from the non-result events alone (no Summary). -/
def transcriptBase (lines : List String) : String :=
  (lines.foldl baseStep {}).mk_build

/-- The result string of the last result-typed event of the lines. -/
def lastResultOf (lines : List String) : String :=
  lines.foldl lastStep ""

/-! ## Question detection (`DetectQuestion`) -/

/-- Does a content block qualify as an AskUserQuestion invocation with a
non-empty question list?  Returns its raw input if so. -/
def questionBlockRaw (b : CliContentBlock) : Option String :=
  if b.type = "tool_use" ∧ b.name = "AskUserQuestion" ∧ b.input ≠ "" then
    match parseQuestionInput b.input with
    | some qi => if qi.questions ≠ [] then some b.input else none
    | none => none
  else none

/-- One line of the `DetectQuestion` loop. -/
def detectStep (lastQuestion : String) (line : String) : String :=
  let line := goTrim line
  if line = "" then lastQuestion
  else
    match parseCliEvent line with
    | none => lastQuestion
    | some evt =>
      if evt.type ≠ "assistant" ∨ evt.message.isNone then lastQuestion
      else
        (evt.message.getD {}).content.foldl (fun lq b =>
          match questionBlockRaw b with
          | some raw => raw
          | none => lq) lastQuestion

/-- `DetectQuestion`: the raw input of the last AskUserQuestion invocation
with a non-empty question list, or `""`. -/
def DetectQuestion (lines : List String) : String :=
  lines.foldl detectStep ""

/-- The qualifying question raw inputs contributed by one line. -/
def lineQuestionRaws (line : String) : List String :=
  let line := goTrim line
  if line = "" then []
  else
    match parseCliEvent line with
    | none => []
    | some evt =>
      if evt.type ≠ "assistant" ∨ evt.message.isNone then []
      else (evt.message.getD {}).content.filterMap questionBlockRaw

/-- All qualifying question raw inputs of the lines, in order. -/
def questionRaws (lines : List String) : List String :=
  lines.flatMap lineQuestionRaws

/-! ## Error extraction (`extractError`) and exit classification (`runClaude`) -/

/-- The loop of `extractError`, carrying the assistant-text fallback. -/
def extractErrorAux : List String → String → String
  | [], fallback => fallback
  | line :: rest, fallback =>
    let line := goTrim line
    if line = "" then extractErrorAux rest fallback
    else
      match parseCliEvent line with
      | none => extractErrorAux rest fallback
      | some evt =>
        if evt.type = "result" ∧ evt.isError ∧ evt.result ≠ "" then evt.result
        else
          let fallback :=
            if fallback = "" ∧ evt.type = "assistant" ∧ evt.message.isSome then
              match (evt.message.getD {}).content.findSome? (fun b =>
                if b.type = "text" ∧ b.text ≠ "" then some b.text else none) with
              | some t => t
              | none => fallback
            else fallback
          extractErrorAux rest fallback

/-- `extractError` from `internal/executor/claude.go`. -/
def extractError (lines : List String) : String :=
  extractErrorAux lines ""

/-- The error-result message one line contributes, if any. -/
def lineErrorResult (line : String) : Option String :=
  let line := goTrim line
  match parseCliEvent line with
  | none => none
  | some evt =>
    if evt.type = "result" ∧ evt.isError ∧ evt.result ≠ "" then some evt.result
    else none

/-- The first non-empty assistant text block one line contributes, if any. -/
def lineAssistantText (line : String) : Option String :=
  let line := goTrim line
  match parseCliEvent line with
  | none => none
  | some evt =>
    if evt.type = "assistant" ∧ evt.message.isSome then
      (evt.message.getD {}).content.findSome? (fun b =>
        if b.type = "text" ∧ b.text ≠ "" then some b.text else none)
    else none

/-- The message of the first result-typed error event with non-empty text. -/
def firstErrorResult (lines : List String) : Option String :=
  lines.findSome? lineErrorResult

/-- The first non-empty text block of the assistant events, in line order. -/
def firstAssistantText (lines : List String) : Option String :=
  lines.findSome? lineAssistantText

/-- `ExecuteResult`: the rendered transcript plus the raw captured lines. -/
structure ExecuteResult where
  transcript : String := ""
  rawLines : List String := []
  deriving Repr, DecidableEq

/-- The classification `runClaude` performs once the subprocess has ended:
`waitErr` is the non-zero-exit error of `cmd.Wait()`, `stderrStr` the
captured error stream. -/
def classifyRun (lines : List String) (stderrStr : String)
    (waitErr : Option String) : Except String ExecuteResult :=
  match waitErr with
  | some werr =>
    if extractError lines ≠ "" then .error (extractError lines)
    else
      let stderrMsg := goTrim stderrStr
      let stdout := goTrim (String.intercalate "\n" lines)
      let parts : List String :=
        (if stderrMsg ≠ "" then [stderrMsg] else []) ++
        (if stdout ≠ "" then [stdout] else [])
      let parts := if parts.isEmpty then [werr] else parts
      .error ("claude: " ++ String.intercalate "\n" parts)
  | none =>
    let transcript := buildTranscript lines
    if transcript = "" then
      let raw := String.intercalate "\n" lines
      if raw = "" then .error "empty response from claude"
      else .ok { transcript := raw, rawLines := lines }
    else .ok { transcript := transcript, rawLines := lines }


/-! ## Data model (`internal/db/jobs.go`, `internal/db/runs.go`)

`Job.pendingQuestion` is the live pending-question field the scheduler reads
and writes (`job.PendingQuestion` in `scheduler.go`). -/

/-- `db.Job`. -/
structure Job where
  id : String := ""
  name : String := ""
  startDate : String := ""
  intervalValue : Int := 0
  intervalUnit : String := ""
  prompt : String := ""
  active : Bool := false
  nextRun : String := ""
  lastRun : String := ""
  status : String := ""
  output : String := ""
  pendingQuestion : String := ""
  deriving Repr, DecidableEq

/-- `db.JobRun` (scheduler view, string output). -/
structure JobRun where
  id : String := ""
  jobId : String := ""
  startedAt : String := ""
  endedAt : String := ""
  status : String := ""
  output : String := ""
  pendingQuestion : String := ""
  deriving Repr, DecidableEq

/-- `db.MCPServer`. -/
structure MCPServer where
  id : String := ""
  name : String := ""
  type : String := ""
  url : String := ""
  command : String := ""
  args : String := ""
  env : String := ""
  headers : String := ""
  deriving Repr, DecidableEq

/-! ## Executor entry points (`ClaudeExecute`, `ClaudeAnswer`)

The subprocess invocation `runClaude` is passed in as a function from the
argument list to its outcome; the temporary MCP-config file path is the
`cfgPath` parameter (its creation/removal is I/O outside the model). -/

/-- `baseArgs`: flags shared by every invocation. -/
def baseArgs : List String :=
  ["--output-format", "stream-json",
   "--verbose",
   "--dangerously-skip-permissions",
   "--append-system-prompt", "You have access to WebSearch and WebFetch tools. Use them whenever the task requires current or real-time information such as weather, news, prices, or live data. Do not tell the user to check a website themselves - use your tools to fetch the information directly."]

/-- `defaultTools`: built-ins always allowed. -/
def defaultTools : String := "Bash,Read,Write,Edit,WebFetch,WebSearch"

/-- The computed `--allowedTools` value: the built-ins plus one wildcard
namespace entry per MCP server. -/
def allowedToolsArg (servers : List MCPServer) : String :=
  servers.foldl (fun tools srv => tools ++ ",mcp__" ++ srv.name ++ "__*") defaultTools

/-- `buildMCPArgs` at the argument level: a `--mcp-config` flag exactly when
servers are configured. -/
def mcpConfigArgs (servers : List MCPServer) (cfgPath : String) : List String :=
  if servers.isEmpty then [] else ["--mcp-config", cfgPath]

/-- The shared tail of every invocation's argument list. -/
def allBaseArgs (servers : List MCPServer) (cfgPath : String) : List String :=
  baseArgs ++ ["--allowedTools", allowedToolsArg servers] ++ mcpConfigArgs servers cfgPath

/-- Arguments of the resume attempt of `ClaudeExecute`. -/
def resumeArgs (job : Job) (servers : List MCPServer) (cfgPath : String) : List String :=
  ["-p", job.prompt, "--resume", job.id] ++ allBaseArgs servers cfgPath

/-- Arguments of the fresh-session fallback of `ClaudeExecute`. -/
def freshArgs (job : Job) (servers : List MCPServer) (cfgPath : String) : List String :=
  ["-p", job.prompt] ++ allBaseArgs servers cfgPath

/-- Arguments of `ClaudeAnswer`. -/
def answerArgs (job : Job) (servers : List MCPServer) (cfgPath : String)
    (answer : String) : List String :=
  ["-p", answer, "--resume", job.id] ++ allBaseArgs servers cfgPath

/-- `ClaudeExecute`: try resuming the job's session; fall back to a fresh
session only when the resume fails with "No conversation found". -/
def ClaudeExecute (run : List String → Except String ExecuteResult)
    (job : Job) (servers : List MCPServer) (cfgPath : String) :
    Except String ExecuteResult :=
  match run (resumeArgs job servers cfgPath) with
  | .ok r => .ok r
  | .error e =>
    if strContains e "No conversation found" then
      run (freshArgs job servers cfgPath)
    else .error e

/-- `ClaudeAnswer`: always resume the conversation with the answer. -/
def ClaudeAnswer (run : List String → Except String ExecuteResult)
    (job : Job) (servers : List MCPServer) (cfgPath : String)
    (answer : String) : Except String ExecuteResult :=
  run (answerArgs job servers cfgPath answer)

/-! ## Store operations as pure state transformers -/

/-- `validateJob` from `internal/db/jobs.go`. -/
def validateJob (j : Job) : Option String :=
  if j.intervalValue ≤ 0 then some "interval value must be greater than 0"
  else if ¬ (j.intervalUnit = "minutes" ∨ j.intervalUnit = "hours" ∨
      j.intervalUnit = "days" ∨ j.intervalUnit = "weeks") then
    some ("invalid interval unit: " ++ j.intervalUnit)
  else none

/-- The persistent state: the jobs table and the job_runs table. -/
structure StoreState where
  jobs : List Job := []
  runs : List JobRun := []
  deriving Repr, DecidableEq

/-- `Store.GetJob`. -/
def getJob (st : StoreState) (id : String) : Option Job :=
  st.jobs.find? (fun j => j.id = id)

/-- `Store.UpdateJob`: validate, then replace the row with the matching id. -/
def updateJobStore (st : StoreState) (j : Job) : Except String StoreState :=
  match validateJob j with
  | some e => .error e
  | none =>
    if st.jobs.any (fun x => x.id = j.id) then
      .ok { st with jobs := st.jobs.map (fun x => if x.id = j.id then j else x) }
    else .error ("job not found: " ++ j.id)

/-- `maxRunsPerJob = 10`. -/
def maxRunsPerJob : Nat := 10

/-- String-level `truncateOutput` used by the scheduler-view store: cut at a
character boundary within the byte budget (Go slices raw bytes; the byte
model `truncateOutputB` is the exact embedding). -/
def takeUtf8Bytes : Nat → List Char → List Char
  | _, [] => []
  | budget, c :: cs =>
    if c.utf8Size ≤ budget then c :: takeUtf8Bytes (budget - c.utf8Size) cs
    else []

/-- String-level output truncation. -/
def truncateOutputStr (s : String) : String :=
  if s.utf8ByteSize ≤ maxOutputBytes then s
  else ⟨takeUtf8Bytes (maxOutputBytes - 13) s.data⟩ ++ "\n\n[truncated]"

/-- `Store.CreateRun` (scheduler view). -/
def createRunStore (st : StoreState) (run : JobRun) (newId : String) :
    JobRun × StoreState :=
  let run := if run.id = "" then { run with id := newId } else run
  let run := { run with output := truncateOutputStr run.output }
  (run, { st with runs := st.runs ++ [run] })

/-- `Store.UpdateRun` (scheduler view). -/
def updateRunStore (st : StoreState) (run : JobRun) : Except String StoreState :=
  let run := { run with output := truncateOutputStr run.output }
  if st.runs.any (fun r => r.id = run.id) then
    .ok { st with runs := st.runs.map (fun r => if r.id = run.id then run else r) }
  else .error ("run not found: " ++ run.id)

/-- Insert a run into a list sorted by `startedAt` descending. -/
def insertRunDesc (r : JobRun) : List JobRun → List JobRun
  | [] => [r]
  | x :: rest =>
    if decide (x.startedAt < r.startedAt) then r :: x :: rest
    else x :: insertRunDesc r rest

/-- A job's runs ordered by `startedAt` descending (`ORDER BY started_at
DESC`). -/
def runsForJobSorted (st : StoreState) (jobID : String) : List JobRun :=
  (st.runs.filter (fun r => r.jobId = jobID)).foldl
    (fun acc r => insertRunDesc r acc) []

/-- `Store.GetLatestRun`. -/
def getLatestRun (st : StoreState) (jobID : String) : Option JobRun :=
  (runsForJobSorted st jobID).head?

/-- `Store.PruneRuns`: keep only the `maxRunsPerJob` most recent runs. -/
def pruneRuns (st : StoreState) (jobID : String) : StoreState :=
  let keep := (runsForJobSorted st jobID).take maxRunsPerJob
  { st with
    runs := st.runs.filter (fun r =>
      r.jobId ≠ jobID ∨ keep.any (fun k => k.id = r.id)) }

/-- `Store.ResetRunningJobs`: `UPDATE jobs SET status='failed',
output='interrupted: app was restarted' WHERE status='running'`. -/
def resetRunningJobs (st : StoreState) : Nat × StoreState :=
  ((st.jobs.filter (fun j => j.status = "running")).length,
   { st with
     jobs := st.jobs.map (fun j =>
       if j.status = "running" then
         { j with status := "failed", output := "interrupted: app was restarted" }
       else j) })

/-- The synchronous part of `Scheduler.Start` before the tick loop spawns:
reset stale running jobs. -/
def schedulerStart (st : StoreState) : StoreState :=
  (resetRunningJobs st).2

/-! ## Due check (`isDue`) -/

/-- `isDue` from `internal/scheduler/scheduler.go`. -/
def isDue (job : Job) (now : Int) : Bool :=
  if ¬ job.active then false
  else if job.status = "running" ∨ job.status = "waiting" then false
  else
    let interval := intervalDuration job.intervalValue job.intervalUnit
    if interval = 0 then false
    else
      let ref := if job.lastRun = "" then job.startDate else job.lastRun
      if ref = "" then false
      else
        match parseTime ref with
        | none => false
        | some refTime => decide (refTime + interval ≤ now)

/-- The due condition exactly as claim C1 words it: active, status not
running/waiting, a valid interval unit, an existing parseable reference
time, and reference + interval ≤ now. -/
def claimDueCond (job : Job) (now : Int) : Bool :=
  job.active &&
  decide (job.status ≠ "running") &&
  decide (job.status ≠ "waiting") &&
  decide (job.intervalUnit = "minutes" ∨ job.intervalUnit = "hours" ∨
    job.intervalUnit = "days" ∨ job.intervalUnit = "weeks") &&
  (let ref := if job.lastRun = "" then job.startDate else job.lastRun
   decide (ref ≠ "") &&
   (match parseTime ref with
    | some t => decide (t + intervalDuration job.intervalValue job.intervalUnit ≤ now)
    | none => false))

/-! ## Run lifecycle (`executeJob`, `finishExecution`, `AnswerQuestion`) -/

/-- The job-field part of `finishExecution`: failure / detected-question /
success branching. -/
def finishJob (job : Job) (result : ExecuteResult) (execErr : Option String) : Job :=
  match execErr with
  | some e => { job with status := "failed", output := e, pendingQuestion := "" }
  | none =>
    let question := DetectQuestion result.rawLines
    if question ≠ "" then
      { job with
        status := "waiting"
        output := result.transcript
        pendingQuestion := question }
    else
      { job with
        status := "success"
        output := result.transcript
        pendingQuestion := "" }

/-- The run-record mirror of `finishExecution`: copy status/output/question
onto the run; stamp `endedAt` (with the completion time `endT`) unless the
run parked in `waiting`. -/
def finishedRun (job' : Job) (run : JobRun) (endT : String) : JobRun :=
  { run with
    status := job'.status
    output := job'.output
    pendingQuestion := job'.pendingQuestion
    endedAt := if job'.status ≠ "waiting" then endT else run.endedAt }

/-- `Scheduler.finishExecution` over the store state; `endT` is the wall
clock read for the run's end timestamp.  Store errors are logged and
swallowed in the source; here a failing update leaves the state unchanged. -/
def finishExecution (st : StoreState) (job : Job) (run : JobRun)
    (result : ExecuteResult) (execErr : Option String) (endT : String) :
    StoreState × Job :=
  let job' := finishJob job result execErr
  let st :=
    match updateJobStore st job' with
    | .ok st' => st'
    | .error _ => st
  if run.id ≠ "" then
    let run' := finishedRun job' run endT
    let st :=
      match updateRunStore st run' with
      | .ok st' => st'
      | .error _ => st
    (pruneRuns st job'.id, job')
  else (st, job')

/-- `Scheduler.executeJob` over the store state.  `now` is the tick (or
RunNow) time, `newRunId` the UUID `CreateRun` would mint, and the
execution outcome is supplied as `result`/`execErr`.  Returns `none` when
the early return on a failed running-transition fires. -/
def executeJob (st : StoreState) (job : Job) (now : Int) (newRunId : String)
    (result : ExecuteResult) (execErr : Option String) (endT : String) :
    Option (StoreState × Job) :=
  let job := { job with status := "running", output := "", pendingQuestion := "" }
  match updateJobStore st job with
  | .error _ => none
  | .ok st =>
    let (run, st) := createRunStore st
      { jobId := job.id, startedAt := fmtRFC3339 now, status := "running" } newRunId
    let job := { job with
      lastRun := fmtRFC3339 now
      nextRun := fmtRFC3339 (now + intervalDuration job.intervalValue job.intervalUnit) }
    some (finishExecution st job run result execErr endT)

/-- `Scheduler.RunNow`, synchronous part: the guard and the job handed to
the background `executeJob`.  The state is never written before the spawn. -/
def RunNow (st : StoreState) (jobID : String) : Except String Job × StoreState :=
  match getJob st jobID with
  | none => (.error ("job not found: " ++ jobID), st)
  | some job =>
    if job.status = "running" then (.error "job is already running", st)
    else (.ok job, st)

/-- `Scheduler.AnswerQuestion`, synchronous part: guard, mark the job
running with the question cleared, mirror onto the latest run.  Returns the
job and run values captured by the background resumption. -/
def AnswerQuestionSync (st : StoreState) (jobID : String) :
    Except String (Job × JobRun) × StoreState :=
  match getJob st jobID with
  | none => (.error ("job not found: " ++ jobID), st)
  | some job =>
    if job.status ≠ "waiting" then
      (.error "job is not waiting for an answer", st)
    else
      let job := { job with status := "running", pendingQuestion := "" }
      match updateJobStore st job with
      | .error e => (.error ("updating job status: " ++ e), st)
      | .ok st =>
        let run := (getLatestRun st jobID).getD {}
        if run.id ≠ "" then
          let run := { run with status := "running", pendingQuestion := "" }
          let st :=
            match updateRunStore st run with
            | .ok st' => st'
            | .error _ => st
          (.ok (job, run), st)
        else (.ok (job, run), st)

/-- The background completion of `AnswerQuestion`: prepend the prior run's
output to the new transcript on success, then run `finishExecution`.  Note:
no last-run/next-run update happens on this path. -/
def answerCompletion (st : StoreState) (job : Job) (run : JobRun)
    (result : ExecuteResult) (execErr : Option String) (endT : String) :
    StoreState × Job :=
  let result :=
    if run.id ≠ "" ∧ execErr = none then
      { result with transcript := run.output ++ "\n\n" ++ result.transcript }
    else result
  finishExecution st job run result execErr endT


/-! ## Shared helper lemmas -/

/-- `finishExecution` always hands back exactly the job computed by the
failure/question/success branching. -/
theorem finishExecution_job_eq (st : StoreState) (job : Job) (run : JobRun)
    (result : ExecuteResult) (execErr : Option String) (endT : String) :
    (finishExecution st job run result execErr endT).2 = finishJob job result execErr := by
  unfold finishExecution
  by_cases h : run.id = "" <;> simp [h]

/-- The branching of `finishJob` never touches the scheduling timestamps. -/
theorem finishJob_timestamps (job : Job) (result : ExecuteResult)
    (execErr : Option String) :
    (finishJob job result execErr).lastRun = job.lastRun ∧
    (finishJob job result execErr).nextRun = job.nextRun := by
  cases execErr with
  | some e => exact ⟨rfl, rfl⟩
  | none =>
    unfold finishJob
    by_cases h : DetectQuestion result.rawLines ≠ "" <;> simp [h]

/-! ## C10 — output truncation bound -/

/-- C10: every JobRun persisted through CreateRun or UpdateRun has an output
of at most 100*1024 bytes: an output at or under the cap is stored
unchanged, and a longer output is cut and stored with the trailing marker
"[truncated]" appended, the stored bytes ending exactly at the cap. -/
theorem C10_output_truncation :
    (∀ s : List UInt8, s.length ≤ maxOutputBytes → truncateOutputB s = s) ∧
    (∀ s : List UInt8, maxOutputBytes < s.length →
      truncateOutputB s =
        s.take (maxOutputBytes - truncatedMarkerB.length) ++ truncatedMarkerB ∧
      (truncateOutputB s).length = maxOutputBytes ∧
      truncatedMarkerB.IsSuffix (truncateOutputB s)) ∧
    (∀ s : List UInt8, (truncateOutputB s).length ≤ maxOutputBytes) ∧
    (∀ runs run newId, (createRunB runs run newId).1.output = truncateOutputB run.output ∧
      (createRunB runs run newId).2 = runs ++ [(createRunB runs run newId).1]) ∧
    (∀ runs run runs', updateRunB runs run = .ok runs' →
      ∀ r ∈ runs', r ∈ runs ∨ r.output = truncateOutputB run.output) := by
  have hmark : truncatedMarkerB.length = 13 := by decide
  refine ⟨?_, ?_, ?_, ?_, ?_⟩
  · intro s h
    simp [truncateOutputB, h]
  · intro s h
    have hns : ¬ s.length ≤ maxOutputBytes := Nat.not_le.mpr h
    have heq : truncateOutputB s =
        s.take (maxOutputBytes - truncatedMarkerB.length) ++ truncatedMarkerB := by
      simp [truncateOutputB, hns]
    refine ⟨heq, ?_, ⟨s.take (maxOutputBytes - truncatedMarkerB.length), heq.symm⟩⟩
    rw [heq]
    simp only [List.length_append, List.length_take, hmark]
    simp only [maxOutputBytes] at h ⊢
    omega
  · intro s
    by_cases h : s.length ≤ maxOutputBytes
    · simp only [truncateOutputB, if_pos h]
      exact h
    · simp only [truncateOutputB, if_neg h, List.length_append, List.length_take, hmark]
      simp only [maxOutputBytes] at h ⊢
      omega
  · intro runs run newId
    constructor
    · by_cases hid : run.id = "" <;> simp only [createRunB, hid, ite_true, ite_false]
    · by_cases hid : run.id = "" <;> simp only [createRunB, hid, ite_true, ite_false]
  · intro runs run runs' h r hr
    simp only [updateRunB] at h
    split at h
    · cases h
      rcases List.mem_map.mp hr with ⟨x, hx, hfx⟩
      by_cases hid : x.id = run.id
      · right
        rw [← hfx, if_pos hid]
      · left
        rw [← hfx, if_neg hid]
        exact hx
    · cases h

/-- Witness for C10 at concrete outputs: a 3-byte output is stored verbatim
and an over-long output is stored at exactly the cap. -/
theorem C10_witness :
    truncateOutputB [1, 2, 3] = [1, 2, 3] ∧
    (truncateOutputB (List.replicate (maxOutputBytes + 1) 65)).length = maxOutputBytes := by
  refine ⟨C10_output_truncation.1 [1, 2, 3] (by decide), ?_⟩
  exact (C10_output_truncation.2.1 (List.replicate (maxOutputBytes + 1) 65)
    (by simp only [List.length_replicate, maxOutputBytes]; omega)).2.1

/-! ## C4 — crash recovery at startup -/

/-- C4: at scheduler startup, before the tick loop starts, every job whose
status is "running" is transitioned to "failed" with output exactly
"interrupted: app was restarted", and every other job (in particular every
"waiting" job with its pending question) is left unchanged in all fields;
the runs table is untouched. -/
theorem C4_crash_recovery :
    ∀ st : StoreState,
      (schedulerStart st).runs = st.runs ∧
      (schedulerStart st).jobs = st.jobs.map (fun j =>
        if j.status = "running" then
          { j with status := "failed", output := "interrupted: app was restarted" }
        else j) ∧
      (∀ j ∈ st.jobs, j.status ≠ "running" → j ∈ (schedulerStart st).jobs) ∧
      (∀ j ∈ st.jobs, j.status = "running" →
        { j with status := "failed", output := "interrupted: app was restarted" } ∈
          (schedulerStart st).jobs) := by
  intro st
  refine ⟨rfl, rfl, ?_, ?_⟩
  · intro j hj hs
    have h := List.mem_map_of_mem (f := fun j =>
      if j.status = "running" then
        ({ j with status := "failed", output := "interrupted: app was restarted" } : Job)
      else j) hj
    simpa [schedulerStart, resetRunningJobs, hs] using h
  · intro j hj hs
    have h := List.mem_map_of_mem (f := fun j =>
      if j.status = "running" then
        ({ j with status := "failed", output := "interrupted: app was restarted" } : Job)
      else j) hj
    simpa [schedulerStart, resetRunningJobs, hs] using h

/-- A stale running job, used by the C4 witness. -/
def c4JobRunning : Job := { id := "r1", status := "running", output := "old" }

/-- A waiting job with a pending question, used by the C4 witness. -/
def c4JobWaiting : Job := { id := "w1", status := "waiting", pendingQuestion := "q" }

/-- Witness for C4 on a concrete store: the running job is failed with the
fixed message, the waiting job survives untouched with its question. -/
theorem C4_witness :
    c4JobWaiting ∈ (schedulerStart { jobs := [c4JobRunning, c4JobWaiting], runs := [] }).jobs ∧
    ({ c4JobRunning with status := "failed", output := "interrupted: app was restarted" } : Job) ∈
      (schedulerStart { jobs := [c4JobRunning, c4JobWaiting], runs := [] }).jobs := by
  constructor
  · exact (C4_crash_recovery { jobs := [c4JobRunning, c4JobWaiting], runs := [] }).2.2.1
      c4JobWaiting (by simp) (by decide)
  · exact (C4_crash_recovery { jobs := [c4JobRunning, c4JobWaiting], runs := [] }).2.2.2
      c4JobRunning (by simp) (by decide)

/-! ## C7 — resume-then-fresh fallback -/

/-- C7: ClaudeExecute first attempts to resume the conversation keyed by the
job's identifier; exactly when that fails with an error containing "No
conversation found" does it retry once as a fresh session, any other
failure is returned as-is; ClaudeAnswer always resumes and never falls
back. -/
theorem C7_resume_fallback :
    (∀ (run : List String → Except String ExecuteResult) job servers cfgPath r,
      run (resumeArgs job servers cfgPath) = .ok r →
      ClaudeExecute run job servers cfgPath = .ok r) ∧
    (∀ (run : List String → Except String ExecuteResult) job servers cfgPath e,
      run (resumeArgs job servers cfgPath) = .error e →
      strContains e "No conversation found" = true →
      ClaudeExecute run job servers cfgPath = run (freshArgs job servers cfgPath)) ∧
    (∀ (run : List String → Except String ExecuteResult) job servers cfgPath e,
      run (resumeArgs job servers cfgPath) = .error e →
      strContains e "No conversation found" = false →
      ClaudeExecute run job servers cfgPath = .error e) ∧
    (∀ (run : List String → Except String ExecuteResult) job servers cfgPath answer,
      ClaudeAnswer run job servers cfgPath answer = run (answerArgs job servers cfgPath answer)) := by
  refine ⟨?_, ?_, ?_, ?_⟩
  · intro run job servers cfgPath r h
    simp [ClaudeExecute, h]
  · intro run job servers cfgPath e h hc
    simp [ClaudeExecute, h, hc]
  · intro run job servers cfgPath e h hc
    simp [ClaudeExecute, h, hc]
  · intro run job servers cfgPath answer
    rfl

/-- A concrete subprocess model for the C7 witness: resume attempts fail
with a no-conversation error, fresh sessions succeed. -/
def c7Run : List String → Except String ExecuteResult := fun args =>
  if args.contains "--resume" then .error "No conversation found with session id j1"
  else .ok { transcript := "fresh session reply" }

/-- Witness for C7: the execute path falls back to a fresh session on the
no-conversation error, while the answer path surfaces it unchanged. -/
theorem C7_witness :
    ClaudeExecute c7Run { id := "j1", prompt := "hi" } [] "" =
      .ok { transcript := "fresh session reply" } ∧
    ClaudeAnswer c7Run { id := "j1", prompt := "hi" } [] "" "my answer" =
      .error "No conversation found with session id j1" := by
  constructor
  · have h := C7_resume_fallback.2.1 c7Run { id := "j1", prompt := "hi" } [] ""
      "No conversation found with session id j1" (by rfl) (by decide)
    rw [h]
    rfl
  · have h := C7_resume_fallback.2.2.2 c7Run { id := "j1", prompt := "hi" } [] "" "my answer"
    rw [h]
    rfl

/-! ## C1 — the due check -/

/-- The due condition with the interval clause as the code computes it: the
interval duration itself must be non-zero (a valid unit with a zero value
also yields zero and is not due). -/
def amendedDueCond (job : Job) (now : Int) : Bool :=
  job.active &&
  decide (job.status ≠ "running") &&
  decide (job.status ≠ "waiting") &&
  decide (intervalDuration job.intervalValue job.intervalUnit ≠ 0) &&
  (let ref := if job.lastRun = "" then job.startDate else job.lastRun
   decide (ref ≠ "") &&
   (match parseTime ref with
    | some t => decide (t + intervalDuration job.intervalValue job.intervalUnit ≤ now)
    | none => false))

/-- The C1 job with a valid unit but zero interval value. -/
def c1Job : Job :=
  { id := "j1", startDate := "2026-01-01T00:00", intervalValue := 0,
    intervalUnit := "minutes", active := true, status := "pending" }

/-- Counterexample to C1 as stated: an active pending job with interval
value 0 and unit "minutes" satisfies every condition the claim lists (the
unit is valid, the start date parses, reference + interval ≤ now), yet
`isDue` is false because the computed duration is zero. -/
theorem C1_counterexample :
    claimDueCond c1Job 1767230000000000000 = true ∧
    isDue c1Job 1767230000000000000 = false := by
  constructor
  · decide
  · decide

/-- C1 (amended): `isDue` is true exactly when the job is active, its status
is neither "running" nor "waiting", the computed interval duration is
non-zero, a reference time (last run, else start date) exists and parses,
and reference + interval ≤ now (non-strict boundary). -/
theorem C1_isDue_characterization :
    ∀ (job : Job) (now : Int), isDue job now = amendedDueCond job now := by
  intro job now
  unfold isDue amendedDueCond
  by_cases ha : job.active <;>
    by_cases hr : job.status = "running" <;>
      by_cases hw : job.status = "waiting" <;>
        by_cases hi : intervalDuration job.intervalValue job.intervalUnit = 0 <;>
          by_cases hre : (if job.lastRun = "" then job.startDate else job.lastRun) = "" <;>
            simp [ha, hr, hw, hi, hre] <;>
              cases hp : parseTime (if job.lastRun = "" then job.startDate else job.lastRun) <;>
                simp [hp]


/-! ## C2 — completion branching and the waiting invariant -/

/-- C2: on every execution completion, an executor error yields status
"failed" with the error text as output and a cleared question; otherwise a
non-empty detected question yields "waiting" with the transcript and the
question payload; otherwise "success" with the transcript and no question.
Consequently a job left "waiting" carries a non-empty pending question. -/
theorem C2_completion_branching :
    ∀ (st : StoreState) (job : Job) (run : JobRun) (result : ExecuteResult)
      (execErr : Option String) (endT : String),
      ((finishExecution st job run result execErr endT).2 = finishJob job result execErr) ∧
      (∀ e, execErr = some e →
        finishJob job result execErr =
          { job with status := "failed", output := e, pendingQuestion := "" }) ∧
      (execErr = none → DetectQuestion result.rawLines ≠ "" →
        finishJob job result execErr =
          { job with status := "waiting", output := result.transcript, pendingQuestion := DetectQuestion result.rawLines }) ∧
      (execErr = none → DetectQuestion result.rawLines = "" →
        finishJob job result execErr =
          { job with status := "success", output := result.transcript, pendingQuestion := "" }) ∧
      ((finishJob job result execErr).status = "waiting" →
        (finishJob job result execErr).pendingQuestion ≠ "") := by
  intro st job run result execErr endT
  refine ⟨finishExecution_job_eq st job run result execErr endT, ?_, ?_, ?_, ?_⟩
  · intro e he
    subst he
    rfl
  · intro he hq
    subst he
    simp only [finishJob, ne_eq, hq, not_false_iff, if_true, ite_true]
  · intro he hq
    subst he
    simp only [finishJob, ne_eq, hq, not_true, if_false, ite_false]
  · cases execErr with
    | some e =>
      intro h
      simp only [finishJob] at h
      exact absurd h (by decide)
    | none =>
      by_cases hq : DetectQuestion result.rawLines = ""
      · intro h
        simp [finishJob, hq] at h
      · intro _
        simp [finishJob, hq]

/-- An AskUserQuestion event line used by the C2 and C6 witnesses. -/
def qLine : String :=
  "\x7b\"type\":\"assistant\",\"message\":\x7b\"content\":[\x7b\"type\":\"tool_use\",\"name\":\"AskUserQuestion\",\"input\":\x7b\"questions\":[\x7b\"question\":\"Pick one?\",\"header\":\"Choice\",\"options\":[\x7b\"label\":\"A\",\"description\":\"first\"\x7d]\x7d]\x7d\x7d]\x7d\x7d"

/-- The raw question payload embedded in `qLine`. -/
def qRaw : String :=
  "\x7b\"questions\":[\x7b\"question\":\"Pick one?\",\"header\":\"Choice\",\"options\":[\x7b\"label\":\"A\",\"description\":\"first\"\x7d]\x7d]\x7d"

/-- Witness for C2 at concrete completions: a detected question parks the
job in "waiting" with a non-empty payload, no question yields "success",
and an executor error yields "failed" with the error text. -/
theorem C2_witness :
    (finishJob { id := "j1" } { transcript := "T", rawLines := [qLine] } none).status = "waiting" ∧
    (finishJob { id := "j1" } { transcript := "T", rawLines := [qLine] } none).pendingQuestion ≠ "" ∧
    (finishJob { id := "j1" } { transcript := "T", rawLines := [] } none).status = "success" ∧
    (finishJob { id := "j1" } { transcript := "T", rawLines := [] } (some "boom")).output = "boom" := by
  have h1 := C2_completion_branching {} { id := "j1" } {} { transcript := "T", rawLines := [qLine] } none "E"
  have h2 := C2_completion_branching {} { id := "j1" } {} { transcript := "T", rawLines := [] } none "E"
  have h3 := C2_completion_branching {} { id := "j1" } {} { transcript := "T", rawLines := [] } (some "boom") "E"
  have hq : DetectQuestion ([qLine] : List String) ≠ "" := by decide
  refine ⟨?_, ?_, ?_, ?_⟩
  · rw [h1.2.2.1 rfl hq]
  · rw [h1.2.2.1 rfl hq]
    exact hq
  · rw [h2.2.2.2.1 rfl (by decide)]
  · rw [h3.2.1 "boom" rfl]

/-! ## C9 — RunNow / AnswerQuestion guards -/

/-- The C9 job: existing, waiting with a pending question, but with an
interval value of 0, so the update persisting the running transition fails
validation. -/
def c9Job : Job :=
  { id := "j1", status := "waiting", pendingQuestion := "q",
    intervalValue := 0, intervalUnit := "minutes", active := true }

/-- Counterexample to C9 as stated: AnswerQuestion on an existing job whose
status IS "waiting" still returns an error, because persisting the running
transition fails job validation (interval value 0). -/
theorem C9_counterexample :
    getJob { jobs := [c9Job], runs := [] } "j1" = some c9Job ∧
    c9Job.status = "waiting" ∧
    (AnswerQuestionSync { jobs := [c9Job], runs := [] } "j1").1 =
      .error "updating job status: interval value must be greater than 0" := by
  refine ⟨rfl, rfl, rfl⟩

/-- C9 (amended): for an existing job, RunNow errors exactly when the job's
status is "running" and never mutates state; AnswerQuestion rejects any
status other than "waiting" with an explicit error, is accepted for a
waiting job that passes update validation, and every rejection leaves the
state unchanged. -/
theorem C9_guards :
    (∀ st id job, getJob st id = some job → job.status = "running" →
      RunNow st id = (.error "job is already running", st)) ∧
    (∀ st id job, getJob st id = some job → job.status ≠ "running" →
      RunNow st id = (.ok job, st)) ∧
    (∀ st id, (RunNow st id).2 = st) ∧
    (∀ st id job, getJob st id = some job → job.status ≠ "waiting" →
      AnswerQuestionSync st id = (.error "job is not waiting for an answer", st)) ∧
    (∀ st id job, getJob st id = some job → job.status = "waiting" →
      validateJob { job with status := "running", pendingQuestion := "" } = none →
      ∃ jr, (AnswerQuestionSync st id).1 = .ok jr) ∧
    (∀ st id e, (AnswerQuestionSync st id).1 = .error e →
      (AnswerQuestionSync st id).2 = st) := by
  refine ⟨?_, ?_, ?_, ?_, ?_, ?_⟩
  · intro st id job hg hs
    simp [RunNow, hg, hs]
  · intro st id job hg hs
    simp [RunNow, hg, hs]
  · intro st id
    unfold RunNow
    cases hg : getJob st id with
    | none => rfl
    | some job => by_cases hs : job.status = "running" <;> simp [hs]
  · intro st id job hg hs
    simp [AnswerQuestionSync, hg, hs]
  · intro st id job hg hs hv
    have hmem : job ∈ st.jobs := List.mem_of_find?_eq_some hg
    have hany : st.jobs.any (fun x =>
        x.id = ({ job with status := "running", pendingQuestion := "" } : Job).id) = true := by
      simp only [List.any_eq_true]
      exact ⟨job, hmem, by simp⟩
    have hupd : ∃ st2, updateJobStore st { job with status := "running", pendingQuestion := "" } = .ok st2 := by
      unfold updateJobStore
      rw [hv, if_pos hany]
      exact ⟨_, rfl⟩
    obtain ⟨st2, hupd⟩ := hupd
    unfold AnswerQuestionSync
    simp only [hg]
    rw [if_neg (by simp [hs])]
    simp only [hupd]
    by_cases hrid : ((getLatestRun st2 id).getD {}).id = ""
    · rw [if_neg (by simpa using hrid)]
      exact ⟨_, rfl⟩
    · rw [if_pos (by simpa using hrid)]
      exact ⟨_, rfl⟩
  · intro st id e
    unfold AnswerQuestionSync
    cases hg : getJob st id with
    | none => intro _; rfl
    | some job =>
      dsimp only
      by_cases hs : job.status ≠ "waiting"
      · rw [if_pos hs]
        intro _
        rfl
      · rw [if_neg hs]
        cases hu : updateJobStore st { job with status := "running", pendingQuestion := "" } with
        | error e1 => intro _; rfl
        | ok st2 =>
          dsimp only
          by_cases hrid : ((getLatestRun st2 id).getD {}).id = ""
          · rw [if_neg (by simpa using hrid)]
            intro he
            simp at he
          · rw [if_pos (by simpa using hrid)]
            intro he
            simp at he

/-- Witness for C9 at concrete states: a running job is rejected by RunNow,
a pending job is rejected by AnswerQuestion, a valid waiting job is
accepted. -/
theorem C9_witness :
    RunNow { jobs := [{ c9Job with status := "running", intervalValue := 5 }], runs := [] } "j1" =
      (.error "job is already running",
       { jobs := [{ c9Job with status := "running", intervalValue := 5 }], runs := [] }) ∧
    AnswerQuestionSync { jobs := [{ c9Job with status := "pending", intervalValue := 5 }], runs := [] } "j1" =
      (.error "job is not waiting for an answer",
       { jobs := [{ c9Job with status := "pending", intervalValue := 5 }], runs := [] }) ∧
    (∃ jr, (AnswerQuestionSync { jobs := [{ c9Job with intervalValue := 5 }], runs := [] } "j1").1 = .ok jr) := by
  refine ⟨?_, ?_, ?_⟩
  · exact C9_guards.1 _ "j1" { c9Job with status := "running", intervalValue := 5 }
      (by decide) (by decide)
  · exact C9_guards.2.2.2.1 _ "j1" { c9Job with status := "pending", intervalValue := 5 }
      (by decide) (by decide)
  · exact C9_guards.2.2.2.2.1 _ "j1" { c9Job with intervalValue := 5 }
      (by decide) (by decide) (by decide)

/-! ## C3 — schedule-clock refresh on completion -/

/-- The C3 job as captured by an answer resumption: its stored last/next-run
come from the original run start. -/
def c3Job : Job :=
  { id := "j1", intervalValue := 5, intervalUnit := "minutes", active := true,
    status := "running", lastRun := "2026-01-01T00:00:00Z",
    nextRun := "2026-01-01T00:05:00Z" }

/-- The C3 run record, whose start differs from the job's stored last-run. -/
def c3Run : JobRun :=
  { id := "r1", jobId := "j1", startedAt := "2026-01-02T00:00:00Z",
    status := "running", output := "prior" }

/-- Counterexample to C3 as stated: a completion arriving through the
answer-resumption path leaves the job's last-run unchanged, so it does not
equal the run's start time — the claim's refresh does not happen there. -/
theorem C3_counterexample :
    (answerCompletion { jobs := [c3Job], runs := [c3Run] } c3Job c3Run
        { transcript := "new", rawLines := [] } none "E").2.lastRun =
      "2026-01-01T00:00:00Z" ∧
    c3Run.startedAt = "2026-01-02T00:00:00Z" ∧
    (answerCompletion { jobs := [c3Job], runs := [c3Run] } c3Job c3Run
        { transcript := "new", rawLines := [] } none "E").2.lastRun ≠ c3Run.startedAt := by
  refine ⟨by decide, by decide, by decide⟩

/-- C3 (amended): completions reached through the tick or RunNow path always
refresh the job's last-run to the run's start time (the tick time) and its
next-run to that time plus the interval, even when the run ends "waiting";
completions reached through an answer resumption leave both timestamps
unchanged. -/
theorem C3_schedule_refresh :
    (∀ st job (now : Int) newRunId result execErr endT,
      (executeJob st job now newRunId result execErr endT).elim True (fun p =>
        p.2.lastRun = fmtRFC3339 now ∧
        p.2.nextRun = fmtRFC3339 (now + intervalDuration job.intervalValue job.intervalUnit))) ∧
    (∀ st job run result execErr endT,
      (answerCompletion st job run result execErr endT).2.lastRun = job.lastRun ∧
      (answerCompletion st job run result execErr endT).2.nextRun = job.nextRun) := by
  constructor
  · intro st job now newRunId result execErr endT
    unfold executeJob
    dsimp only
    cases hu : updateJobStore st { job with status := "running", output := "", pendingQuestion := "" } with
    | error e => exact trivial
    | ok st2 =>
      cases hcr : createRunStore st2
          { jobId := job.id, startedAt := fmtRFC3339 now, status := "running" } newRunId with
      | mk run2 st3 =>
        dsimp only [Option.elim]
        rw [finishExecution_job_eq]
        exact ⟨(finishJob_timestamps _ _ _).1, (finishJob_timestamps _ _ _).2⟩
  · intro st job run result execErr endT
    unfold answerCompletion
    constructor
    · rw [finishExecution_job_eq, (finishJob_timestamps _ _ _).1]
    · rw [finishExecution_job_eq, (finishJob_timestamps _ _ _).2]


/-! ## C5 — Summary deduplication in buildTranscript -/

/-- `goTrim` of the empty string. -/
theorem goTrim_empty : goTrim "" = "" := rfl

/-- One step of `buildTranscript`'s loop splits into the builder part and
the last-result part. -/
theorem transcriptStep_pair (acc : TB × String) (line : String) :
    transcriptStep acc line = (baseStep acc.1 line, lastStep acc.2 line) := by
  unfold transcriptStep baseStep lastStep
  by_cases h : goTrim line = ""
  · simp [h]
  · simp only [h, if_false, ite_false]
    cases hp : parseCliEvent (goTrim line) with
    | none => rfl
    | some evt =>
      by_cases ha : evt.type = "assistant"
      · simp [ha]
      · by_cases hres : evt.type = "result" <;> simp [ha, hres]

/-- The paired fold of `buildTranscript` is the product of the two
independent folds. -/
theorem foldl_transcript_pair (lines : List String) (tb : TB) (last : String) :
    lines.foldl transcriptStep (tb, last) =
      (lines.foldl baseStep tb, lines.foldl lastStep last) := by
  induction lines generalizing tb last with
  | nil => rfl
  | cons l ls ih =>
    rw [List.foldl_cons, List.foldl_cons, List.foldl_cons, transcriptStep_pair]
    exact ih _ _

/-- C5: buildTranscript appends the held-back result text as a trailing
Summary section if and only if its trimmed text is non-empty and not
already contained as a substring of the transcript built from the other
events; in particular a result echoing the transcript yields no Summary. -/
theorem C5_summary_dedup :
    ∀ lines : List String,
      (buildTranscript lines =
        if goTrim (lastResultOf lines) ≠ "" ∧
            strContains (transcriptBase lines) (goTrim (lastResultOf lines)) = false
        then ((lines.foldl baseStep {}).writeSummary (lastResultOf lines)).mk_build
        else transcriptBase lines) ∧
      (strContains (transcriptBase lines) (goTrim (lastResultOf lines)) = true →
        buildTranscript lines = transcriptBase lines) := by
  intro lines
  have hmain : buildTranscript lines =
      if goTrim (lastResultOf lines) ≠ "" ∧
          strContains (transcriptBase lines) (goTrim (lastResultOf lines)) = false
      then ((lines.foldl baseStep {}).writeSummary (lastResultOf lines)).mk_build
      else transcriptBase lines := by
    unfold buildTranscript lastResultOf transcriptBase
    rw [foldl_transcript_pair]
    dsimp only
    by_cases h1 : lines.foldl lastStep "" = ""
    · rw [if_neg (by simp [h1]), if_neg (by simp [h1, goTrim_empty])]
    · rw [if_pos h1]
      by_cases h2 : strContains (lines.foldl baseStep {}).mk_build
          (goTrim (lines.foldl lastStep "")) = true
      · rw [if_neg (by simp [h2]), if_neg (by simp [h2])]
      · have h2f : strContains (lines.foldl baseStep {}).mk_build
            (goTrim (lines.foldl lastStep "")) = false := by
          simpa using h2
        have h3 : goTrim (lines.foldl lastStep "") ≠ "" := by
          intro he
          exact h2 (by rw [he]; exact strContains_empty _)
        rw [if_pos h2, if_pos ⟨h3, h2f⟩]
  exact ⟨hmain, fun h => by rw [hmain, if_neg (by simp [h])]⟩

/-- A plain assistant text line used by the C5 witness. -/
def c5TextLine : String :=
  "\x7b\"type\":\"assistant\",\"message\":\x7b\"content\":[\x7b\"type\":\"text\",\"text\":\"Hello\"\x7d]\x7d\x7d"

/-- A result event echoing the transcript, used by the C5 witness. -/
def c5EchoResult : String := "\x7b\"type\":\"result\",\"result\":\"Hello\"\x7d"

/-- Witness for C5: a result event whose text already appears in the built
transcript produces no separate Summary section. -/
theorem C5_witness :
    buildTranscript [c5TextLine, c5EchoResult] = transcriptBase [c5TextLine, c5EchoResult] := by
  exact (C5_summary_dedup [c5TextLine, c5EchoResult]).2 (by decide)

/-! ## C6 — question rendering and detection -/

/-- `json.Unmarshal` of an absent raw input fails. -/
theorem parseQuestionInput_empty : parseQuestionInput "" = none := rfl

/-- The inner block fold of `DetectQuestion` keeps the last qualifying raw
input. -/
theorem questionFold (blocks : List CliContentBlock) (last : String) :
    blocks.foldl (fun lq b =>
      match questionBlockRaw b with
      | some raw => raw
      | none => lq) last = (blocks.filterMap questionBlockRaw).getLastD last := by
  induction blocks generalizing last with
  | nil => rfl
  | cons b bs ih =>
    rw [List.foldl_cons, List.filterMap_cons]
    cases hb : questionBlockRaw b with
    | none =>
      simp only [hb]
      exact ih last
    | some raw =>
      simp only [hb]
      rw [List.getLastD_cons]
      exact ih raw

/-- `getLastD` over an append chains through the default. -/
theorem getLastD_append (A B : List String) (d : String) :
    (A ++ B).getLastD d = B.getLastD (A.getLastD d) := by
  induction A generalizing d with
  | nil => rfl
  | cons a as ih =>
    rw [List.cons_append, List.getLastD_cons, List.getLastD_cons, ih]

/-- One `DetectQuestion` step keeps the last qualifying raw input of the
line, falling back to the accumulator. -/
theorem detectStep_eq (last line : String) :
    detectStep last line = (lineQuestionRaws line).getLastD last := by
  unfold detectStep lineQuestionRaws
  by_cases h : goTrim line = ""
  · simp [h]
  · simp only [h, if_false, ite_false]
    cases hp : parseCliEvent (goTrim line) with
    | none => rfl
    | some evt =>
      dsimp only
      split
      · rfl
      · exact questionFold _ _

/-- The `DetectQuestion` fold returns the last qualifying raw input overall. -/
theorem foldl_detect (lines : List String) (last : String) :
    lines.foldl detectStep last = (questionRaws lines).getLastD last := by
  induction lines generalizing last with
  | nil => rfl
  | cons l ls ih =>
    rw [List.foldl_cons, detectStep_eq, ih]
    unfold questionRaws
    rw [List.flatMap_cons, getLastD_append]

/-- C6: an AskUserQuestion tool-use block whose input parses to a non-empty
question list always renders as a question card and never as a generic tool
block; DetectQuestion returns, verbatim, the raw input of the last such
invocation in the lines (empty string when none exists). -/
theorem C6_question_detection :
    (∀ (tb : TB) (name raw : String) (qi : QuestionInput),
      parseQuestionInput raw = some qi → qi.questions ≠ [] → name = "AskUserQuestion" →
      TB.writeToolUse tb name raw = TB.writeQuestion tb qi) ∧
    (∀ (tb : TB) (name raw : String),
      ¬ (name = "AskUserQuestion" ∧ ∃ qi, parseQuestionInput raw = some qi ∧ qi.questions ≠ []) →
      TB.writeToolUse tb name raw = TB.writeToolUseGeneric tb name raw) ∧
    (∀ lines : List String, DetectQuestion lines = (questionRaws lines).getLastD "") := by
  refine ⟨?_, ?_, ?_⟩
  · intro tb name raw qi hp hq hn
    subst hn
    have hraw : raw ≠ "" := by
      intro he
      rw [he, parseQuestionInput_empty] at hp
      cases hp
    unfold TB.writeToolUse
    rw [if_pos ⟨rfl, hraw⟩]
    simp only [hp]
    rw [if_pos hq]
  · intro tb name raw h
    by_cases hn : name = "AskUserQuestion"
    · by_cases hraw : raw = ""
      · unfold TB.writeToolUse
        rw [if_neg (by simp [hraw])]
      · cases hp : parseQuestionInput raw with
        | none =>
          unfold TB.writeToolUse
          rw [if_pos ⟨hn, hraw⟩]
          simp only [hp]
        | some qi =>
          have hq : ¬ qi.questions ≠ [] := fun hq => h ⟨hn, qi, hp, hq⟩
          unfold TB.writeToolUse
          rw [if_pos ⟨hn, hraw⟩]
          simp only [hp]
          rw [if_neg hq]
    · unfold TB.writeToolUse
      rw [if_neg (by simp [hn])]
  · intro lines
    exact foldl_detect lines ""

/-- The decoded question payload of `qRaw`. -/
def c6Qi : QuestionInput :=
  { questions := [{ question := "Pick one?", header := "Choice", options := [{ label := "A", description := "first" }] }] }

/-- Witness for C6: the concrete AskUserQuestion invocation renders as a
question card and DetectQuestion returns its raw input verbatim. -/
theorem C6_witness :
    TB.writeToolUse {} "AskUserQuestion" qRaw = TB.writeQuestion {} c6Qi ∧
    DetectQuestion [qLine] = qRaw := by
  constructor
  · exact C6_question_detection.1 {} "AskUserQuestion" qRaw c6Qi (by decide) (by decide) rfl
  · rw [C6_question_detection.2.2 [qLine]]
    decide

/-! ## C8 — error extraction order -/

/-- `json.Unmarshal` of an empty line fails. -/
theorem parseCliEvent_empty : parseCliEvent "" = none := rfl

/-- A captured assistant-text fallback is never the empty string. -/
theorem lineAssistantText_ne_empty (line t : String) :
    lineAssistantText line = some t → t ≠ "" := by
  intro h
  unfold lineAssistantText at h
  dsimp only at h
  cases hp : parseCliEvent (goTrim line) with
  | none =>
    rw [hp] at h
    cases h
  | some evt =>
    rw [hp] at h
    dsimp only at h
    by_cases ha : evt.type = "assistant" ∧ evt.message.isSome = true
    · rw [if_pos ha] at h
      rcases List.findSome?_eq_some_iff.mp h with ⟨l1, b, l2, _, hfb, _⟩
      by_cases hbt : b.type = "text" ∧ b.text ≠ ""
      · rw [if_pos hbt] at hfb
        cases hfb
        exact hbt.2
      · rw [if_neg hbt] at hfb
        cases hfb
    · rw [if_neg ha] at h
      cases h

/-- When a line carries a non-empty error-result message, the scan returns
it immediately. -/
theorem extractErrorAux_cons_err (line : String) (rest : List String) (fb e : String)
    (hl : lineErrorResult line = some e) :
    extractErrorAux (line :: rest) fb = e := by
  unfold lineErrorResult at hl
  dsimp only at hl
  rw [extractErrorAux]
  dsimp only
  by_cases h : goTrim line = ""
  · rw [h, parseCliEvent_empty] at hl
    cases hl
  · rw [if_neg h]
    cases hp : parseCliEvent (goTrim line) with
    | none =>
      rw [hp] at hl
      cases hl
    | some evt =>
      rw [hp] at hl
      dsimp only at hl ⊢
      by_cases he : evt.type = "result" ∧ evt.isError = true ∧ evt.result ≠ ""
      · rw [if_pos he] at hl
        cases hl
        rw [if_pos he]
      · rw [if_neg he] at hl
        cases hl

/-- When a line carries no error-result message, the scan continues with the
fallback possibly seeded by the line's assistant text. -/
theorem extractErrorAux_cons_noerr (line : String) (rest : List String) (fb : String)
    (hl : lineErrorResult line = none) :
    extractErrorAux (line :: rest) fb =
      extractErrorAux rest (if fb = "" then (lineAssistantText line).getD "" else fb) := by
  unfold lineErrorResult at hl
  dsimp only at hl
  unfold lineAssistantText
  dsimp only
  rw [extractErrorAux]
  dsimp only
  by_cases h : goTrim line = ""
  · rw [h, parseCliEvent_empty]
    rw [if_pos rfl]
    dsimp only
    by_cases hf : fb = "" <;> simp [hf]
  · rw [if_neg h]
    cases hp : parseCliEvent (goTrim line) with
    | none =>
      dsimp only
      by_cases hf : fb = "" <;> simp [hf]
    | some evt =>
      rw [hp] at hl
      dsimp only at hl ⊢
      by_cases he : evt.type = "result" ∧ evt.isError = true ∧ evt.result ≠ ""
      · rw [if_pos he] at hl
        cases hl
      · rw [if_neg he]
        congr 1
        by_cases hf : fb = ""
        · by_cases ha : evt.type = "assistant" ∧ evt.message.isSome = true
          · rw [if_pos ⟨hf, ha.1, ha.2⟩, if_pos hf, if_pos ha]
            cases hfs : (evt.message.getD {}).content.findSome? (fun b =>
                if b.type = "text" ∧ b.text ≠ "" then some b.text else none) with
            | none => simp [hfs, hf]
            | some t => simp [hfs]
          · rw [if_neg (fun hc => ha ⟨hc.2.1, hc.2.2⟩), if_pos hf, if_neg ha]
            rw [hf]
            rfl
        · rw [if_neg (fun hc => hf hc.1), if_neg hf]

/-- The `extractError` scan returns the first non-empty error-result
message, else the fallback (seeded by the first non-empty assistant text). -/
theorem extractErrorAux_spec (lines : List String) (fb : String) :
    extractErrorAux lines fb =
      match firstErrorResult lines with
      | some e => e
      | none => if fb = "" then (firstAssistantText lines).getD "" else fb := by
  induction lines generalizing fb with
  | nil =>
    unfold extractErrorAux firstErrorResult firstAssistantText
    by_cases hf : fb = "" <;> simp [hf]
  | cons l ls ih =>
    cases hl : lineErrorResult l with
    | some e =>
      rw [extractErrorAux_cons_err l ls fb e hl]
      unfold firstErrorResult
      rw [List.findSome?_cons]
      simp [hl]
    | none =>
      rw [extractErrorAux_cons_noerr l ls fb hl, ih]
      unfold firstErrorResult firstAssistantText
      rw [List.findSome?_cons, List.findSome?_cons]
      simp only [hl]
      cases hfe : ls.findSome? lineErrorResult with
      | some e => rfl
      | none =>
        dsimp only
        by_cases hf : fb = ""
        · cases hal : lineAssistantText l with
          | none => simp [hf, hal]
          | some t =>
            have ht : t ≠ "" := lineAssistantText_ne_empty l t hal
            simp [hf, hal, ht]
        · simp [hf]

/-- A result error event with an empty message, for the C8 counterexample. -/
def c8ErrEmptyLine : String := "\x7b\"type\":\"result\",\"result\":\"\",\"is_error\":true\x7d"

/-- An assistant text event, for the C8 counterexample. -/
def c8BoomLine : String :=
  "\x7b\"type\":\"assistant\",\"message\":\x7b\"content\":[\x7b\"type\":\"text\",\"text\":\"boom\"\x7d]\x7d\x7d"

/-- Counterexample to C8 as stated: the first result-typed event flagged as
an error has the empty message, so the claim demands the empty string be
returned immediately; the code skips it (its message is empty) and returns
the later assistant text "boom" instead. -/
theorem C8_counterexample :
    parseCliEvent c8ErrEmptyLine = some { type := "result", result := "", isError := true } ∧
    extractError [c8ErrEmptyLine, c8BoomLine] = "boom" ∧
    ("boom" : String) ≠ "" := by
  refine ⟨by decide, by decide, by decide⟩

/-- C8 (amended): extractError returns the message of the first result-typed
error event with a non-empty message; failing that, the first non-empty
text block of the assistant events in order; else the empty string.  On a
non-zero exit a non-empty extracted message is surfaced alone as the
invocation's error. -/
theorem C8_error_extraction :
    (∀ lines : List String,
      extractError lines =
        match firstErrorResult lines with
        | some e => e
        | none => (firstAssistantText lines).getD "") ∧
    (∀ (lines : List String) (stderrStr werr : String),
      extractError lines ≠ "" →
      classifyRun lines stderrStr (some werr) = .error (extractError lines)) := by
  constructor
  · intro lines
    unfold extractError
    rw [extractErrorAux_spec]
    cases firstErrorResult lines <;> simp
  · intro lines stderrStr werr h
    unfold classifyRun
    dsimp only
    rw [if_pos h]

/-- A flagged result error event with a non-empty message, for the C8
witness. -/
def c8FatalLine : String := "\x7b\"type\":\"result\",\"result\":\"fatal: bad\",\"is_error\":true\x7d"

/-- Witness for C8: on a non-zero exit, the non-empty extracted message is
surfaced alone as the invocation's error. -/
theorem C8_witness :
    classifyRun [c8FatalLine] "stderr noise" (some "exit status 1") = .error "fatal: bad" := by
  have h := C8_error_extraction.2 [c8FatalLine] "stderr noise" "exit status 1" (by decide)
  rw [h]
  rfl

end ClaudeScheduler
